import Mathlib

/-!
Verification of the image-preparation pipelines in
`src/website/images/create_appstore_screenshots.py` and
`src/website/images/create_mockups.py`.

The two Python scripts are shallowly embedded below.  Raster images are
modelled as a width, a height, and a total pixel function; PIL primitives
(`new`, `paste`, `putalpha`, `alpha_composite`, `ImageDraw.rounded_rectangle`)
are given their documented per-pixel semantics.  Python float arithmetic on
scale factors is modelled exactly over the rationals: `int(h * (W / w))` for
positive integers is the natural-number floor division `(h * W) / w`.
`Image.resize` with a resampling filter is modelled with the dimensions the
call guarantees and an arbitrary resampling kernel supplied as a parameter,
since the claims under study depend only on dimensions and on pixels the
resampler never touches.
-/

/-- An RGB pixel (mode "RGB": no alpha channel). -/
@[ext]
structure RGB where
  r : ℕ
  g : ℕ
  b : ℕ
deriving DecidableEq

/-- An RGBA pixel (mode "RGBA": 8-bit alpha, 255 = fully opaque). -/
@[ext]
structure RGBA where
  r : ℕ
  g : ℕ
  b : ℕ
  a : ℕ
deriving DecidableEq

/-- A raster image: explicit dimensions plus a total pixel map.
Only indices `x < width`, `y < height` are meaningful. -/
@[ext]
structure Img (α : Type) where
  width : ℕ
  height : ℕ
  pixel : ℕ → ℕ → α

/-- `Image.new(mode, (w, h), color)`: a constant-color canvas. -/
def imageNew (α : Type) (w h : ℕ) (c : α) : Img α :=
  ⟨w, h, fun _ _ => c⟩

/-- `canvas.paste(im, (x0, y0))` (no mask argument): pixels of `im` replace
the canvas pixels, alpha band included, inside the pasted rectangle; the
canvas keeps its own dimensions. -/
def Img.paste {α : Type} (canvas : Img α) (im : Img α) (x0 y0 : ℕ) : Img α :=
  ⟨canvas.width, canvas.height, fun i j =>
    if x0 ≤ i ∧ i < x0 + im.width ∧ y0 ≤ j ∧ j < y0 + im.height then
      im.pixel (i - x0) (j - y0)
    else
      canvas.pixel i j⟩

/-- A resampling kernel: given the source image and the target dimensions,
produces the pixel map of the resized image.  `Image.resize` guarantees the
output dimensions; the pixel values produced by LANCZOS resampling are kept
abstract as this parameter. -/
def Resample (α : Type) : Type :=
  Img α → ℕ → ℕ → ℕ → ℕ → α

/-- `im.resize((nw, nh), Image.Resampling.LANCZOS)`: exact target
dimensions, resampled content. -/
def Img.resize {α : Type} (im : Img α) (f : Resample α) (nw nh : ℕ) : Img α :=
  ⟨nw, nh, f im nw nh⟩

/-- `Image.open(path).convert("RGB")`: drops the alpha channel of the
decoded source, keeping the color bands. -/
def convertRGB (im : Img RGBA) : Img RGB :=
  ⟨im.width, im.height, fun x y =>
    ⟨(im.pixel x y).r, (im.pixel x y).g, (im.pixel x y).b⟩⟩

/-! ## create_appstore_screenshots.py -/

/-- `APPSTORE_WIDTH` (line 13). -/
def APPSTORE_WIDTH : ℕ := 1284

/-- `APPSTORE_HEIGHT` (line 14). -/
def APPSTORE_HEIGHT : ℕ := 2778

/-- `SCREENSHOTS` manifest of create_appstore_screenshots.py (lines 17-22). -/
def APPSTORE_SCREENSHOTS : List String :=
  ["PreWorkout.PNG", "Workout.PNG", "Activity.PNG", "Bubble.PNG"]

/-- The scaling step, lines 31-41 of create_appstore_screenshots.py, with
Python float arithmetic made exact over ℚ:
`scale = APPSTORE_WIDTH / orig_width`, `new_height = int(orig_height * scale)`
is `(h * APPSTORE_WIDTH) / w` in floor division; if `new_height >
APPSTORE_HEIGHT` then `scale = APPSTORE_HEIGHT / orig_height`,
`new_width = int(orig_width * scale)`, `new_height = APPSTORE_HEIGHT`,
else `new_width = APPSTORE_WIDTH`.  Returns `(new_width, new_height)`. -/
def scaleDims (w h : ℕ) : ℕ × ℕ :=
  if (h * APPSTORE_WIDTH) / w > APPSTORE_HEIGHT then
    ((w * APPSTORE_HEIGHT) / h, APPSTORE_HEIGHT)
  else
    (APPSTORE_WIDTH, (h * APPSTORE_WIDTH) / w)

/-- Horizontal centering offset, line 50: `x = (APPSTORE_WIDTH - new_width) // 2`. -/
def pasteX (nw : ℕ) : ℕ :=
  (APPSTORE_WIDTH - nw) / 2

/-- Vertical centering offset, line 51: `y = (APPSTORE_HEIGHT - new_height) // 2`. -/
def pasteY (nh : ℕ) : ℕ :=
  (APPSTORE_HEIGHT - nh) / 2

/-- The letterbox step, lines 47-52: a black `APPSTORE_WIDTH ×
APPSTORE_HEIGHT` RGB canvas with the resized image pasted at the centering
offsets. -/
def letterbox (im : Img RGB) : Img RGB :=
  (imageNew RGB APPSTORE_WIDTH APPSTORE_HEIGHT ⟨0, 0, 0⟩).paste im
    (pasteX im.width) (pasteY im.height)

/-- `create_appstore_screenshot` (lines 24-54), from decoded source raster to
the canvas that is saved: convert to RGB, scale to fit, resize, letterbox. -/
def create_appstore_screenshot (f : Resample RGB) (src : Img RGBA) : Img RGB :=
  let img := convertRGB src
  let nd := scaleDims img.width img.height
  letterbox (img.resize f nd.1 nd.2)

/-! ## create_mockups.py -/

/-- `SCREENSHOTS` manifest of create_mockups.py (lines 14-20). -/
def MOCKUP_SCREENSHOTS : List String :=
  ["PreWorkout.PNG", "Workout.PNG", "Activity.PNG", "Bubble.PNG", "Splash.PNG"]

/-- `SCREEN_LEFT` (line 27). -/
def SCREEN_LEFT : ℕ := 90

/-- `SCREEN_TOP` (line 28). -/
def SCREEN_TOP : ℕ := 90

/-- `SCREEN_RIGHT` (line 29). -/
def SCREEN_RIGHT : ℕ := 1268

/-- `SCREEN_BOTTOM` (line 30). -/
def SCREEN_BOTTOM : ℕ := 2645

/-- `CORNER_RADIUS` (line 33). -/
def CORNER_RADIUS : ℕ := 110

/-- The fill region of `ImageDraw.rounded_rectangle([(0, 0), (w, h)],
radius=r, fill=255)` (line 41).  The drawing primitive fills the rounded
rectangle over the inclusive bounding box `[(0,0), (w,h)]`: the union of the
central rectangle of full height with `r ≤ x ≤ w - r`, the central rectangle
of full width with `r ≤ y ≤ h - r`, and the four corner discs of radius `r`
centered at `(r, r)`, `(w-r, r)`, `(r, h-r)`, `(w-r, h-r)`. -/
def roundedRectUnion (wi hi ri xi yi : ℤ) : Prop :=
  (ri ≤ xi ∧ xi ≤ wi - ri ∧ 0 ≤ yi ∧ yi ≤ hi) ∨
  (0 ≤ xi ∧ xi ≤ wi ∧ ri ≤ yi ∧ yi ≤ hi - ri) ∨
  (xi - ri) ^ 2 + (yi - ri) ^ 2 ≤ ri ^ 2 ∨
  (xi - (wi - ri)) ^ 2 + (yi - ri) ^ 2 ≤ ri ^ 2 ∨
  (xi - ri) ^ 2 + (yi - (hi - ri)) ^ 2 ≤ ri ^ 2 ∨
  (xi - (wi - ri)) ^ 2 + (yi - (hi - ri)) ^ 2 ≤ ri ^ 2

instance roundedRectUnionDec (wi hi ri xi yi : ℤ) :
    Decidable (roundedRectUnion wi hi ri xi yi) := by
  unfold roundedRectUnion
  exact inferInstance

def roundedRectMember (w h r x y : ℕ) : Prop :=
  roundedRectUnion (w : ℤ) (h : ℤ) (r : ℤ) (x : ℤ) (y : ℤ)

instance roundedRectMemberDec (w h r x y : ℕ) :
    Decidable (roundedRectMember w h r x y) := by
  unfold roundedRectMember
  exact inferInstance

/-- Lines 39-41 of create_mockups.py: mode-"L" mask initialised to 0,
rounded rectangle filled with 255. -/
def roundedMask (w h r : ℕ) : Img ℕ :=
  ⟨w, h, fun x y => if roundedRectMember w h r x y then 255 else 0⟩

/-- `im.putalpha(mask)` (line 45): replaces the alpha band with the mask. -/
def Img.putalpha (im : Img RGBA) (m : Img ℕ) : Img RGBA :=
  ⟨im.width, im.height, fun x y =>
    ⟨(im.pixel x y).r, (im.pixel x y).g, (im.pixel x y).b, m.pixel x y⟩⟩

/-- `add_rounded_corners` (lines 36-46): build the rounded-rectangle mask at
the image's size and install it as the image's alpha channel. -/
def add_rounded_corners (im : Img RGBA) (radius : ℕ) : Img RGBA :=
  im.putalpha (roundedMask im.width im.height radius)

/-- Per-pixel "over" alpha compositing of a foreground pixel `fg` onto a
background pixel `bg`, 8-bit alpha, exact integer arithmetic scaled by 255:
`outA = fg.a * 255 + bg.a * (255 - fg.a)` is 255² times the real output
alpha, color bands are the standard unpremultiplied blend. -/
def overPixel (bg fg : RGBA) : RGBA :=
  if fg.a * 255 + bg.a * (255 - fg.a) = 0 then ⟨0, 0, 0, 0⟩
  else
    ⟨(fg.r * fg.a * 255 + bg.r * bg.a * (255 - fg.a)) / (fg.a * 255 + bg.a * (255 - fg.a)),
     (fg.g * fg.a * 255 + bg.g * bg.a * (255 - fg.a)) / (fg.a * 255 + bg.a * (255 - fg.a)),
     (fg.b * fg.a * 255 + bg.b * bg.a * (255 - fg.a)) / (fg.a * 255 + bg.a * (255 - fg.a)),
     (fg.a * 255 + bg.a * (255 - fg.a)) / 255⟩

/-- `Image.alpha_composite(bg, fg)` (line 77): pixelwise "over" compositing
of `fg` on top of `bg`; PIL requires equal sizes and keeps them. -/
def alphaComposite (bg fg : Img RGBA) : Img RGBA :=
  ⟨bg.width, bg.height, fun x y => overPixel (bg.pixel x y) (fg.pixel x y)⟩

/-- Line 64: the screenshot is stretched to exactly the screen-region
dimensions, regardless of its own dimensions (aspect ratio not preserved). -/
def mockupResized (f : Resample RGBA) (screenshot : Img RGBA) : Img RGBA :=
  screenshot.resize f (SCREEN_RIGHT - SCREEN_LEFT) (SCREEN_BOTTOM - SCREEN_TOP)

/-- `create_mockup` (lines 49-80), from decoded bezel and screenshot rasters
to the composite that is saved: stretch the screenshot to the screen region,
round its corners, paste it at `(SCREEN_LEFT, SCREEN_TOP)` on a fully
transparent canvas of the bezel's size, then alpha-composite the bezel on
top. -/
def create_mockup (f : Resample RGBA) (bezel screenshot : Img RGBA) : Img RGBA :=
  let sr := add_rounded_corners (mockupResized f screenshot) CORNER_RADIUS
  alphaComposite
    ((imageNew RGBA bezel.width bezel.height ⟨0, 0, 0, 0⟩).paste sr SCREEN_LEFT SCREEN_TOP)
    bezel

/-! ## Batch orchestration (`main` of each script) -/

/-- `os.path.splitext(name)[0]` for ordinary file names: the name up to the
last dot, or the whole name when there is no dot. -/
def splitextBase (s : String) : String :=
  let rev := s.toList.reverse
  if rev.any (fun c => c = '.') then
    String.mk ((rev.dropWhile (fun c => c ≠ '.')).drop 1).reverse
  else s

/-- Output name derivation of create_appstore_screenshots.py line 72. -/
def appstoreOutputName (n : String) : String :=
  splitextBase n ++ "-appstore.png"

/-- Output name derivation of create_mockups.py line 101. -/
def mockupOutputName (n : String) : String :=
  splitextBase n ++ "-mockup.png"

/-- The per-manifest loop shared by both `main` functions: walk the manifest
in order; an entry whose source file exists is processed and its derived
output name recorded, an entry whose source file is missing is skipped and
recorded as reported-missing, and the loop continues either way.  Returns
`(written outputs, skipped entries)`, each in manifest order. -/
def processBatch : List String → (String → Bool) → (String → String) → List String × List String
  | [], _, _ => ([], [])
  | n :: rest, ex, out =>
    let p := processBatch rest ex out
    if ex n then (out n :: p.1, p.2) else (p.1, n :: p.2)

/-- `main` of create_appstore_screenshots.py (lines 57-77): loop over the
manifest with skip-and-continue on missing files.  `ex` tells which source
files exist. -/
def appstoreMain (ex : String → Bool) : List String × List String :=
  processBatch APPSTORE_SCREENSHOTS ex appstoreOutputName

/-- `main` of create_mockups.py (lines 83-107): if the bezel asset is
missing, print an error and `return` from `main` — a plain early return, not
`sys.exit` and not an exception, so only this run ends and no output is
written.  Otherwise run the manifest loop.  The `Except` layer records
whether the run ended by killing the enclosing process (`Except.error`,
which the code never does) or by returning normally (`Except.ok`). -/
def mockupMain (bezelExists : Bool) (ex : String → Bool) :
    Except String (List String × List String) :=
  if bezelExists then
    Except.ok (processBatch MOCKUP_SCREENSHOTS ex mockupOutputName)
  else
    Except.ok ([], [])

/-- Modelled from the words of claim C2, for comparison with `scaleDims`:
fit-width first with the exact scale `s = W / w`; if the exact resulting
height `h * s` exceeds `H` — over ℚ, `h * W / w > H` iff `h * W > H * w` —
recompute `s = H / h`; both outputs are the truncations of `w * s` and
`h * s` for the selected `s`. -/
def scaleDimsClaim (w h : ℕ) : ℕ × ℕ :=
  if h * APPSTORE_WIDTH > APPSTORE_HEIGHT * w then
    ((w * APPSTORE_HEIGHT) / h, (h * APPSTORE_HEIGHT) / h)
  else
    ((w * APPSTORE_WIDTH) / w, (h * APPSTORE_WIDTH) / w)

/-- The ideal rounded rectangle of the spec, as a point set: a point of the
box `[0, w] × [0, h]` belongs to the rectangle with corners rounded by
radius `r` exactly when its clamped distance to the inner rectangle
`[r, w-r] × [r, h-r]` is at most `r`. -/
def inRoundedRectSpec (w h r x y : ℕ) : Prop :=
  (max ((r : ℤ) - (x : ℤ)) (max ((x : ℤ) - ((w : ℤ) - (r : ℤ))) 0)) ^ 2 +
    (max ((r : ℤ) - (y : ℤ)) (max ((y : ℤ) - ((h : ℤ) - (r : ℤ))) 0)) ^ 2 ≤
      (r : ℤ) ^ 2

/-! ## Theorems -/

/-- C1: for every source image with positive dimensions `(w, h)`, the scaling
step produces `(new_w, new_h)` with `new_w ≤ 1284`, `new_h ≤ 2778`, and at
least one of `new_w = 1284` or `new_h = 2778`. -/
theorem scaleDims_fits (w h : ℕ) (hw : 0 < w) (hh : 0 < h) :
    (scaleDims w h).1 ≤ APPSTORE_WIDTH ∧ (scaleDims w h).2 ≤ APPSTORE_HEIGHT ∧
    ((scaleDims w h).1 = APPSTORE_WIDTH ∨ (scaleDims w h).2 = APPSTORE_HEIGHT) := by
  unfold scaleDims
  by_cases hc : (h * APPSTORE_WIDTH) / w > APPSTORE_HEIGHT
  · rw [if_pos hc]
    refine ⟨?_, le_refl _, Or.inr rfl⟩
    have h1 : (APPSTORE_HEIGHT + 1) * w ≤ h * APPSTORE_WIDTH :=
      (Nat.le_div_iff_mul_le hw).mp hc
    have h2 : w * APPSTORE_HEIGHT ≤ h * APPSTORE_WIDTH := by
      calc w * APPSTORE_HEIGHT = APPSTORE_HEIGHT * w := Nat.mul_comm _ _
        _ ≤ (APPSTORE_HEIGHT + 1) * w := Nat.mul_le_mul_right _ (Nat.le_succ _)
        _ ≤ h * APPSTORE_WIDTH := h1
    calc (w * APPSTORE_HEIGHT) / h ≤ (h * APPSTORE_WIDTH) / h :=
          Nat.div_le_div_right h2
      _ = APPSTORE_WIDTH := Nat.mul_div_cancel_left _ hh
  · rw [if_neg hc]
    exact ⟨le_refl _, Nat.le_of_not_lt hc, Or.inl rfl⟩

/-- Witness for `scaleDims_fits` at the concrete input (640, 480). -/
theorem scaleDims_fits_witness :
    (scaleDims 640 480).1 ≤ APPSTORE_WIDTH ∧
    (scaleDims 640 480).2 ≤ APPSTORE_HEIGHT ∧
    ((scaleDims 640 480).1 = APPSTORE_WIDTH ∨ (scaleDims 640 480).2 = APPSTORE_HEIGHT) :=
  scaleDims_fits 640 480 (by decide) (by decide)

/-- C2 counterexample: at source dimensions (2568, 5557) the exact resulting
height `h * (W / w) = 2778.5` exceeds `H = 2778` (equivalently `h * W >
H * w`), so the claimed policy takes the fit-height fallback and yields
(1283, 2778), but the code compares the truncated height `int(h * s) = 2778`
against `H` and keeps the width-first branch, yielding (1284, 2778). -/
theorem scaleDims_exact_branch_counterexample :
    5557 * APPSTORE_WIDTH > APPSTORE_HEIGHT * 2568 ∧
    scaleDims 2568 5557 = (1284, 2778) ∧
    scaleDimsClaim 2568 5557 = (1283, 2778) ∧
    scaleDimsClaim 2568 5557 ≠ scaleDims 2568 5557 := by
  decide

/-- C2 amended: the scaler computes `s = W / w` first and falls back to
`s = H / h` when the TRUNCATED resulting height `int(h * s)` exceeds `H`
(not when the exact product `h * s` does); with the selected `s`, both
outputs equal the truncations of `w * s` and `h * s`. -/
theorem scaleDims_truncated_branch (w h : ℕ) (hw : 0 < w) (hh : 0 < h) :
    scaleDims w h =
      if (h * APPSTORE_WIDTH) / w > APPSTORE_HEIGHT then
        ((w * APPSTORE_HEIGHT) / h, (h * APPSTORE_HEIGHT) / h)
      else
        ((w * APPSTORE_WIDTH) / w, (h * APPSTORE_WIDTH) / w) := by
  unfold scaleDims
  by_cases hc : (h * APPSTORE_WIDTH) / w > APPSTORE_HEIGHT
  · rw [if_pos hc, if_pos hc, Nat.mul_div_cancel_left _ hh]
  · rw [if_neg hc, if_neg hc, Nat.mul_div_cancel_left _ hw]

/-- Witness for `scaleDims_truncated_branch` at the concrete input (2, 1). -/
theorem scaleDims_truncated_branch_witness :
    scaleDims 2 1 =
      if (1 * APPSTORE_WIDTH) / 2 > APPSTORE_HEIGHT then
        ((2 * APPSTORE_HEIGHT) / 1, (1 * APPSTORE_HEIGHT) / 1)
      else
        ((2 * APPSTORE_WIDTH) / 2, (1 * APPSTORE_WIDTH) / 2) :=
  scaleDims_truncated_branch 2 1 (by decide) (by decide)

/-- C8: a 1000×1000 source in the 1284×2778 box stays in the width-first
branch (scale `W / 1000 = 1.284`), yields new dimensions (1284, 1284), and
the letterbox paste offset is `y = (2778 - 1284) // 2 = 747`. -/
theorem example_square_source :
    scaleDims 1000 1000 = (1284, 1284) ∧
    ¬ (1000 * APPSTORE_WIDTH) / 1000 > APPSTORE_HEIGHT ∧
    (APPSTORE_WIDTH : ℚ) / 1000 = 1.284 ∧
    pasteY 1284 = 747 ∧
    (APPSTORE_HEIGHT - 1284) / 2 = 747 := by
  refine ⟨by decide, by decide, ?_, by decide, by decide⟩
  norm_num [APPSTORE_WIDTH]

/-- C6: when the bezel asset is missing, the mockup run returns at once with
no outputs and no skips recorded, for every state of the screenshot files;
and for every input the run ends with `Except.ok` — a normal return from
`main`, never a process-terminating outcome. -/
theorem mockupMain_missing_bezel :
    (∀ ex : String → Bool, mockupMain false ex = Except.ok ([], [])) ∧
    (∀ (b : Bool) (ex : String → Bool), ∃ res, mockupMain b ex = Except.ok res) := by
  refine ⟨fun ex => rfl, fun b ex => ?_⟩
  cases b
  · exact ⟨([], []), rfl⟩
  · exact ⟨processBatch MOCKUP_SCREENSHOTS ex mockupOutputName, rfl⟩

/-- The batch loop processes exactly the existing entries, in manifest
order, and records exactly the missing ones as skipped. -/
theorem processBatch_eq (l : List String) (ex : String → Bool) (out : String → String) :
    processBatch l ex out = ((l.filter ex).map out, l.filter (fun n => !ex n)) := by
  induction l with
  | nil => rfl
  | cons n rest ih =>
    cases hx : ex n <;> simp [processBatch, ih, List.filter_cons, hx]

/-- C7: in both batch runners a manifest entry whose source file is missing
is skipped and reported while every existing entry is still processed, in
order; a missing source file never aborts the batch. -/
theorem batch_skip_and_continue (ex : String → Bool) :
    appstoreMain ex =
      ((APPSTORE_SCREENSHOTS.filter ex).map appstoreOutputName,
       APPSTORE_SCREENSHOTS.filter (fun n => !ex n)) ∧
    mockupMain true ex =
      Except.ok ((MOCKUP_SCREENSHOTS.filter ex).map mockupOutputName,
        MOCKUP_SCREENSHOTS.filter (fun n => !ex n)) := by
  constructor
  · exact processBatch_eq _ _ _
  · simp [mockupMain, processBatch_eq]

/-- C3: for every scaled image with `new_w ≤ 1284` and `new_h ≤ 2778`, the
letterbox step pastes it at offsets `x = (1284 - new_w) // 2` and
`y = (2778 - new_h) // 2` on the background canvas, and the composed output
has exactly dimensions 1284 × 2778. -/
theorem letterbox_centered (im : Img RGB)
    (_h1 : im.width ≤ APPSTORE_WIDTH) (_h2 : im.height ≤ APPSTORE_HEIGHT) :
    (letterbox im).width = APPSTORE_WIDTH ∧
    (letterbox im).height = APPSTORE_HEIGHT ∧
    pasteX im.width = (APPSTORE_WIDTH - im.width) / 2 ∧
    pasteY im.height = (APPSTORE_HEIGHT - im.height) / 2 ∧
    (∀ i j, i < im.width → j < im.height →
      (letterbox im).pixel (pasteX im.width + i) (pasteY im.height + j) = im.pixel i j) := by
  refine ⟨rfl, rfl, rfl, rfl, ?_⟩
  intro i j hi hj
  have hc : pasteX im.width ≤ pasteX im.width + i ∧
      pasteX im.width + i < pasteX im.width + im.width ∧
      pasteY im.height ≤ pasteY im.height + j ∧
      pasteY im.height + j < pasteY im.height + im.height := by omega
  show (if _ ∧ _ ∧ _ ∧ _ then _ else _) = _
  rw [if_pos hc, Nat.add_sub_cancel_left, Nat.add_sub_cancel_left]

/-- Witness for `letterbox_centered` at a concrete 2 × 2 image. -/
theorem letterbox_centered_witness :
    (letterbox ⟨2, 2, fun _ _ => RGB.mk 9 8 7⟩).pixel (pasteX 2 + 1) (pasteY 2 + 0) =
      RGB.mk 9 8 7 :=
  (letterbox_centered ⟨2, 2, fun _ _ => RGB.mk 9 8 7⟩ (by decide) (by decide)).2.2.2.2
    1 0 (by decide) (by decide)

/-- C4: using the fixed screen-region constants `left = 90`, `top = 90`,
`right = 1268`, `bottom = 2645`, the mockup pipeline resizes every input
screenshot, regardless of its original dimensions, to exactly
`(right - left) × (bottom - top) = 1178 × 2555` pixels (aspect ratio not
preserved). -/
theorem mockup_stretch_exact :
    SCREEN_LEFT = 90 ∧ SCREEN_TOP = 90 ∧ SCREEN_RIGHT = 1268 ∧ SCREEN_BOTTOM = 2645 ∧
    SCREEN_RIGHT - SCREEN_LEFT = 1178 ∧ SCREEN_BOTTOM - SCREEN_TOP = 2555 ∧
    ∀ (f : Resample RGBA) (s : Img RGBA),
      (mockupResized f s).width = 1178 ∧ (mockupResized f s).height = 2555 :=
  ⟨rfl, rfl, rfl, rfl, rfl, rfl, fun _ _ => ⟨rfl, rfl⟩⟩

set_option maxRecDepth 4096 in
/-- "Over" compositing with a fully opaque foreground returns the
foreground pixel. -/
theorem overPixel_fg_opaque (bg fg : RGBA) (h : fg.a = 255) : overPixel bg fg = fg := by
  unfold overPixel
  rw [h]
  simp only [Nat.sub_self, Nat.mul_zero, Nat.add_zero]
  rw [if_neg (by omega)]
  refine RGBA.ext ?_ ?_ ?_ ?_ <;> dsimp only <;> omega

/-- "Over" compositing of a fully transparent foreground onto a fully
opaque background returns the background pixel. -/
theorem overPixel_fg_clear_bg_opaque (bg fg : RGBA) (hf : fg.a = 0) (hb : bg.a = 255) :
    overPixel bg fg = bg := by
  unfold overPixel
  rw [hf, hb]
  simp only [Nat.mul_zero, Nat.zero_mul, Nat.zero_add, Nat.sub_zero]
  rw [if_neg (by omega)]
  refine RGBA.ext ?_ ?_ ?_ ?_ <;> dsimp only <;> omega

/-- "Over" compositing of two fully transparent pixels is transparent. -/
theorem overPixel_clear_clear (bg fg : RGBA) (hf : fg.a = 0) (hb : bg.a = 0) :
    overPixel bg fg = ⟨0, 0, 0, 0⟩ := by
  unfold overPixel
  rw [hf, hb]
  rw [if_pos (by omega)]

/-- Pixel-level reading of `create_mockup`: the masked, stretched screenshot
pasted at `(SCREEN_LEFT, SCREEN_TOP)` on a transparent canvas, composited
under the bezel. -/
theorem create_mockup_pixel (f : Resample RGBA) (bez s : Img RGBA) (x y : ℕ) :
    (create_mockup f bez s).pixel x y =
      overPixel
        (if SCREEN_LEFT ≤ x ∧ x < SCREEN_LEFT + (SCREEN_RIGHT - SCREEN_LEFT) ∧
            SCREEN_TOP ≤ y ∧ y < SCREEN_TOP + (SCREEN_BOTTOM - SCREEN_TOP) then
          (add_rounded_corners (mockupResized f s) CORNER_RADIUS).pixel
            (x - SCREEN_LEFT) (y - SCREEN_TOP)
        else ⟨0, 0, 0, 0⟩)
        (bez.pixel x y) := rfl

/-- C5: the mockup compositor builds a fully transparent canvas of the
bezel's size, pastes the masked screenshot at `(90, 90)`, then composites
the bezel on top: the output has exactly the bezel's dimensions, every pixel
where the bezel is fully opaque equals the bezel's pixel (frame on top),
every pixel outside the screen region where the bezel is fully transparent
is fully transparent (the canvas), and every pixel inside the screen region
where the bezel is fully transparent and the mask is opaque equals the
masked screenshot's pixel at the `(90, 90)` offset. -/
theorem create_mockup_compositing (f : Resample RGBA) (bez s : Img RGBA) :
    (create_mockup f bez s).width = bez.width ∧
    (create_mockup f bez s).height = bez.height ∧
    (∀ x y, (bez.pixel x y).a = 255 →
      (create_mockup f bez s).pixel x y = bez.pixel x y) ∧
    (∀ x y, (bez.pixel x y).a = 0 →
      (x < SCREEN_LEFT ∨ y < SCREEN_TOP ∨ SCREEN_RIGHT ≤ x ∨ SCREEN_BOTTOM ≤ y) →
      (create_mockup f bez s).pixel x y = ⟨0, 0, 0, 0⟩) ∧
    (∀ x y, (bez.pixel x y).a = 0 →
      SCREEN_LEFT ≤ x → x < SCREEN_RIGHT → SCREEN_TOP ≤ y → y < SCREEN_BOTTOM →
      ((add_rounded_corners (mockupResized f s) CORNER_RADIUS).pixel
          (x - SCREEN_LEFT) (y - SCREEN_TOP)).a = 255 →
      (create_mockup f bez s).pixel x y =
        (add_rounded_corners (mockupResized f s) CORNER_RADIUS).pixel
          (x - SCREEN_LEFT) (y - SCREEN_TOP)) := by
  refine ⟨rfl, rfl, ?_, ?_, ?_⟩
  · intro x y hb
    rw [create_mockup_pixel]
    exact overPixel_fg_opaque _ _ hb
  · intro x y hb hout
    rw [create_mockup_pixel, if_neg (by
      simp only [SCREEN_LEFT, SCREEN_TOP, SCREEN_RIGHT, SCREEN_BOTTOM] at hout ⊢
      omega)]
    exact overPixel_clear_clear _ _ hb rfl
  · intro x y hb h1 h2 h3 h4 hmask
    rw [create_mockup_pixel, if_pos (by
      simp only [SCREEN_LEFT, SCREEN_TOP, SCREEN_RIGHT, SCREEN_BOTTOM] at h1 h2 h3 h4 ⊢
      omega)]
    exact overPixel_fg_clear_bg_opaque _ _ hb hmask

/-- Witness for `create_mockup_compositing` at a concrete opaque bezel and
screenshot: the frame-on-top conjunct at pixel (0, 0). -/
theorem create_mockup_compositing_witness :
    (create_mockup (fun im _ _ x y => im.pixel x y)
        ⟨200, 100, fun _ _ => RGBA.mk 5 6 7 255⟩
        ⟨3, 3, fun _ _ => RGBA.mk 1 2 3 4⟩).pixel 0 0 = RGBA.mk 5 6 7 255 :=
  (create_mockup_compositing (fun im _ _ x y => im.pixel x y)
    ⟨200, 100, fun _ _ => RGBA.mk 5 6 7 255⟩
    ⟨3, 3, fun _ _ => RGBA.mk 1 2 3 4⟩).2.2.1 0 0 rfl

/-- Pixel-level reading of `create_appstore_screenshot`: resized content
inside the centered rectangle, black background outside. -/
theorem create_appstore_pixel (f : Resample RGB) (s : Img RGBA) (i j : ℕ) :
    (create_appstore_screenshot f s).pixel i j =
      if pasteX (scaleDims s.width s.height).1 ≤ i ∧
          i < pasteX (scaleDims s.width s.height).1 + (scaleDims s.width s.height).1 ∧
          pasteY (scaleDims s.width s.height).2 ≤ j ∧
          j < pasteY (scaleDims s.width s.height).2 + (scaleDims s.width s.height).2 then
        f (convertRGB s) (scaleDims s.width s.height).1 (scaleDims s.width s.height).2
          (i - pasteX (scaleDims s.width s.height).1)
          (j - pasteY (scaleDims s.width s.height).2)
      else ⟨0, 0, 0⟩ := rfl

/-- C10: the store-screenshot pipeline converts the source to RGB before
scaling, discarding any source alpha channel — replacing the source's alpha
band by anything leaves the (alpha-free, hence fully opaque) RGB output
unchanged — and the letterbox bars outside the centered rectangle are black
(0, 0, 0). -/
theorem appstore_opaque_black (f : Resample RGB) (s : Img RGBA) (af : ℕ → ℕ → ℕ) :
    create_appstore_screenshot f
        ⟨s.width, s.height, fun x y =>
          ⟨(s.pixel x y).r, (s.pixel x y).g, (s.pixel x y).b, af x y⟩⟩ =
      create_appstore_screenshot f s ∧
    ∀ i j,
      ¬ (pasteX (scaleDims s.width s.height).1 ≤ i ∧
          i < pasteX (scaleDims s.width s.height).1 + (scaleDims s.width s.height).1 ∧
          pasteY (scaleDims s.width s.height).2 ≤ j ∧
          j < pasteY (scaleDims s.width s.height).2 + (scaleDims s.width s.height).2) →
      (create_appstore_screenshot f s).pixel i j = ⟨0, 0, 0⟩ := by
  refine ⟨rfl, ?_⟩
  intro i j hij
  rw [create_appstore_pixel, if_neg hij]

/-- Witness for `appstore_opaque_black`: the top-left bar pixel of a 2 × 2
source is black. -/
theorem appstore_opaque_black_witness :
    (create_appstore_screenshot (fun im _ _ x y => im.pixel x y)
        ⟨2, 2, fun _ _ => RGBA.mk 10 20 30 7⟩).pixel 0 0 = RGB.mk 0 0 0 :=
  (appstore_opaque_black (fun im _ _ x y => im.pixel x y)
    ⟨2, 2, fun _ _ => RGBA.mk 10 20 30 7⟩ (fun _ _ => 99)).2 0 0 (by decide)

/-- The union of two central rectangles and four corner discs drawn by the
rounded-rectangle rasterizer coincides with the ideal rounded rectangle
(clamped-distance form) whenever `0 ≤ R`, `2R ≤ W` and `2R ≤ H`. -/
theorem roundedRectUnion_iff_clamp (W H R X Y : ℤ)
    (hR : 0 ≤ R) (hW : 2 * R ≤ W) (hH : 2 * R ≤ H) :
    roundedRectUnion W H R X Y ↔
      (max (R - X) (max (X - (W - R)) 0)) ^ 2 +
        (max (R - Y) (max (Y - (H - R)) 0)) ^ 2 ≤ R ^ 2 := by
  set dx := max (R - X) (max (X - (W - R)) 0) with hdxdef
  set dy := max (R - Y) (max (Y - (H - R)) 0) with hdydef
  have hdx0 : 0 ≤ dx := le_max_of_le_right (le_max_right _ _)
  have hdy0 : 0 ≤ dy := le_max_of_le_right (le_max_right _ _)
  have hAdx : R - X ≤ dx := le_max_left _ _
  have hBdx : X - (W - R) ≤ dx := le_max_of_le_right (le_max_left _ _)
  have hCdy : R - Y ≤ dy := le_max_left _ _
  have hDdy : Y - (H - R) ≤ dy := le_max_of_le_right (le_max_left _ _)
  constructor
  · rintro (⟨h1, h2, h3, h4⟩ | ⟨h1, h2, h3, h4⟩ | hd | hd | hd | hd)
    · have hx : dx = 0 :=
        le_antisymm (max_le (by omega) (max_le (by omega) le_rfl)) hdx0
      have hy : dy ≤ R := max_le (by omega) (max_le (by omega) hR)
      have hy2 : dy ^ 2 ≤ R ^ 2 := pow_le_pow_left₀ hdy0 hy 2
      rw [hx]
      simpa using hy2
    · have hy : dy = 0 :=
        le_antisymm (max_le (by omega) (max_le (by omega) le_rfl)) hdy0
      have hx : dx ≤ R := max_le (by omega) (max_le (by omega) hR)
      have hx2 : dx ^ 2 ≤ R ^ 2 := pow_le_pow_left₀ hdx0 hx 2
      rw [hy]
      simpa using hx2
    · have hx : dx ≤ |X - R| := by
        refine max_le ?_ (max_le ?_ (abs_nonneg _))
        · calc R - X ≤ |R - X| := le_abs_self _
            _ = |X - R| := abs_sub_comm _ _
        · exact le_trans (by omega) (le_abs_self (X - R))
      have hy : dy ≤ |Y - R| := by
        refine max_le ?_ (max_le ?_ (abs_nonneg _))
        · calc R - Y ≤ |R - Y| := le_abs_self _
            _ = |Y - R| := abs_sub_comm _ _
        · exact le_trans (by omega) (le_abs_self (Y - R))
      have e1 : dx ^ 2 ≤ (X - R) ^ 2 := by
        have := pow_le_pow_left₀ hdx0 hx 2
        rwa [sq_abs] at this
      have e2 : dy ^ 2 ≤ (Y - R) ^ 2 := by
        have := pow_le_pow_left₀ hdy0 hy 2
        rwa [sq_abs] at this
      exact le_trans (add_le_add e1 e2) hd
    · have hx : dx ≤ |X - (W - R)| := by
        refine max_le ?_ (max_le (le_abs_self _) (abs_nonneg _))
        · calc R - X ≤ (W - R) - X := by omega
            _ ≤ |(W - R) - X| := le_abs_self _
            _ = |X - (W - R)| := abs_sub_comm _ _
      have hy : dy ≤ |Y - R| := by
        refine max_le ?_ (max_le ?_ (abs_nonneg _))
        · calc R - Y ≤ |R - Y| := le_abs_self _
            _ = |Y - R| := abs_sub_comm _ _
        · exact le_trans (by omega) (le_abs_self (Y - R))
      have e1 : dx ^ 2 ≤ (X - (W - R)) ^ 2 := by
        have := pow_le_pow_left₀ hdx0 hx 2
        rwa [sq_abs] at this
      have e2 : dy ^ 2 ≤ (Y - R) ^ 2 := by
        have := pow_le_pow_left₀ hdy0 hy 2
        rwa [sq_abs] at this
      exact le_trans (add_le_add e1 e2) hd
    · have hx : dx ≤ |X - R| := by
        refine max_le ?_ (max_le ?_ (abs_nonneg _))
        · calc R - X ≤ |R - X| := le_abs_self _
            _ = |X - R| := abs_sub_comm _ _
        · exact le_trans (by omega) (le_abs_self (X - R))
      have hy : dy ≤ |Y - (H - R)| := by
        refine max_le ?_ (max_le (le_abs_self _) (abs_nonneg _))
        · calc R - Y ≤ (H - R) - Y := by omega
            _ ≤ |(H - R) - Y| := le_abs_self _
            _ = |Y - (H - R)| := abs_sub_comm _ _
      have e1 : dx ^ 2 ≤ (X - R) ^ 2 := by
        have := pow_le_pow_left₀ hdx0 hx 2
        rwa [sq_abs] at this
      have e2 : dy ^ 2 ≤ (Y - (H - R)) ^ 2 := by
        have := pow_le_pow_left₀ hdy0 hy 2
        rwa [sq_abs] at this
      exact le_trans (add_le_add e1 e2) hd
    · have hx : dx ≤ |X - (W - R)| := by
        refine max_le ?_ (max_le (le_abs_self _) (abs_nonneg _))
        · calc R - X ≤ (W - R) - X := by omega
            _ ≤ |(W - R) - X| := le_abs_self _
            _ = |X - (W - R)| := abs_sub_comm _ _
      have hy : dy ≤ |Y - (H - R)| := by
        refine max_le ?_ (max_le (le_abs_self _) (abs_nonneg _))
        · calc R - Y ≤ (H - R) - Y := by omega
            _ ≤ |(H - R) - Y| := le_abs_self _
            _ = |Y - (H - R)| := abs_sub_comm _ _
      have e1 : dx ^ 2 ≤ (X - (W - R)) ^ 2 := by
        have := pow_le_pow_left₀ hdx0 hx 2
        rwa [sq_abs] at this
      have e2 : dy ^ 2 ≤ (Y - (H - R)) ^ 2 := by
        have := pow_le_pow_left₀ hdy0 hy 2
        rwa [sq_abs] at this
      exact le_trans (add_le_add e1 e2) hd
  · intro hs
    have hdxsq : dx ^ 2 ≤ R ^ 2 := le_trans (le_add_of_nonneg_right (sq_nonneg _)) hs
    have hdysq : dy ^ 2 ≤ R ^ 2 := le_trans (le_add_of_nonneg_left (sq_nonneg _)) hs
    have hdxR : dx ≤ R := (abs_le_of_sq_le_sq' hdxsq hR).2
    have hdyR : dy ≤ R := (abs_le_of_sq_le_sq' hdysq hR).2
    rcases eq_or_lt_of_le hdx0 with hdxz | hdxp
    · exact Or.inl ⟨by omega, by omega, by omega, by omega⟩
    rcases eq_or_lt_of_le hdy0 with hdyz | hdyp
    · exact Or.inr (Or.inl ⟨by omega, by omega, by omega, by omega⟩)
    have hdxeq : dx = R - X ∨ dx = X - (W - R) := by
      rcases max_choice (R - X) (max (X - (W - R)) 0) with hm | hm
      · exact Or.inl (hdxdef.trans hm)
      · rcases max_choice (X - (W - R)) 0 with hm2 | hm2
        · exact Or.inr ((hdxdef.trans hm).trans hm2)
        · have hz : dx = 0 := (hdxdef.trans hm).trans hm2
          omega
    have hdyeq : dy = R - Y ∨ dy = Y - (H - R) := by
      rcases max_choice (R - Y) (max (Y - (H - R)) 0) with hm | hm
      · exact Or.inl (hdydef.trans hm)
      · rcases max_choice (Y - (H - R)) 0 with hm2 | hm2
        · exact Or.inr ((hdydef.trans hm).trans hm2)
        · have hz : dy = 0 := (hdydef.trans hm).trans hm2
          omega
    rcases hdxeq with hx | hx <;> rcases hdyeq with hy | hy
    · refine Or.inr (Or.inr (Or.inl ?_))
      have e1 : (X - R) ^ 2 = dx ^ 2 := by rw [hx]; ring
      have e2 : (Y - R) ^ 2 = dy ^ 2 := by rw [hy]; ring
      rw [e1, e2]
      exact hs
    · refine Or.inr (Or.inr (Or.inr (Or.inr (Or.inl ?_))))
      have e1 : (X - R) ^ 2 = dx ^ 2 := by rw [hx]; ring
      have e2 : (Y - (H - R)) ^ 2 = dy ^ 2 := by rw [hy]
      rw [e1, e2]
      exact hs
    · refine Or.inr (Or.inr (Or.inr (Or.inl ?_)))
      have e1 : (X - (W - R)) ^ 2 = dx ^ 2 := by rw [hx]
      have e2 : (Y - R) ^ 2 = dy ^ 2 := by rw [hy]; ring
      rw [e1, e2]
      exact hs
    · refine Or.inr (Or.inr (Or.inr (Or.inr (Or.inr ?_))))
      have e1 : (X - (W - R)) ^ 2 = dx ^ 2 := by rw [hx]
      have e2 : (Y - (H - R)) ^ 2 = dy ^ 2 := by rw [hy]
      rw [e1, e2]
      exact hs

/-- C9: the rounded-corner masking operation at radius 0 yields a mask fully
opaque (alpha 255) at every pixel of the image's grid; in general a pixel's
alpha is 255 exactly on the drawn rounded-rectangle region and 0 off it, and
— whenever the radius fits the image, `2r ≤ w` and `2r ≤ h` — that drawn
region coincides with the ideal rounded rectangle of the spec. -/
theorem add_rounded_corners_mask (im : Img RGBA) (_hw : 0 < im.width) (_hh : 0 < im.height) :
    (∀ x y, x < im.width → y < im.height →
      ((add_rounded_corners im 0).pixel x y).a = 255) ∧
    (∀ r x y, roundedRectMember im.width im.height r x y →
      ((add_rounded_corners im r).pixel x y).a = 255) ∧
    (∀ r x y, ¬ roundedRectMember im.width im.height r x y →
      ((add_rounded_corners im r).pixel x y).a = 0) ∧
    (∀ r x y, 2 * r ≤ im.width → 2 * r ≤ im.height →
      (roundedRectMember im.width im.height r x y ↔
        inRoundedRectSpec im.width im.height r x y)) := by
  have hmask : ∀ r x y, ((add_rounded_corners im r).pixel x y).a =
      if roundedRectMember im.width im.height r x y then 255 else 0 :=
    fun _ _ _ => rfl
  refine ⟨?_, ?_, ?_, ?_⟩
  · intro x y hx hy
    have hm : roundedRectMember im.width im.height 0 x y := by
      unfold roundedRectMember roundedRectUnion
      left
      refine ⟨?_, ?_, ?_, ?_⟩ <;> push_cast <;> omega
    rw [hmask, if_pos hm]
  · intro r x y hm
    rw [hmask, if_pos hm]
  · intro r x y hm
    rw [hmask, if_neg hm]
  · intro r x y hrw hrh
    unfold roundedRectMember inRoundedRectSpec
    exact roundedRectUnion_iff_clamp (im.width : ℤ) (im.height : ℤ) (r : ℤ) (x : ℤ) (y : ℤ)
      (Int.ofNat_nonneg r) (by exact_mod_cast hrw) (by exact_mod_cast hrh)

/-- Witness for `add_rounded_corners_mask` on a concrete 4 × 3 image:
radius 0 leaves pixel (3, 2) fully opaque. -/
theorem add_rounded_corners_mask_witness :
    ((add_rounded_corners ⟨4, 3, fun _ _ => RGBA.mk 1 1 1 9⟩ 0).pixel 3 2).a = 255 :=
  (add_rounded_corners_mask ⟨4, 3, fun _ _ => RGBA.mk 1 1 1 9⟩ (by decide) (by decide)).1
    3 2 (by decide) (by decide)
